import Mathlib

/-
Shallow embedding of the ory/hydra OAuth2 client controller
(`controllers/oauth2client_controller.go`, `api/v1alpha1/oauth2client_types.go`,
`hydra` types file). One reconciliation pass is modelled as a pure function of
the reconciler state, a `World` of oracle responses for every external call the
pass can make, and the request; it returns the pass result, the updated
reconciler state, and the ordered trace of external effects.
-/

deriving instance DecidableEq for Except

namespace HydraMaester

/-- Registry wire representation of an OAuth2 client (`hydra.OAuth2ClientJSON`).
Pointer-typed Go fields (`ClientID *string`, `Secret *string`) become `Option`;
the `json.RawMessage` metadata field is kept in serialized form. -/
structure OAuth2ClientJSON where
  clientName : String
  clientId : Option String
  secret : Option String
  grantTypes : List String
  redirectUris : List String
  postLogoutRedirectUris : List String
  allowedCorsOrigins : List String
  responseTypes : List String
  audience : List String
  scope : String
  owner : String
  tokenEndpointAuthMethod : String
  metadata : String
deriving DecidableEq, Repr

/-- Client id and password fetched from a Kubernetes secret
(`hydra.Oauth2ClientCredentials`); `Password` is a possibly-nil byte slice. -/
structure Oauth2ClientCredentials where
  id : String
  password : Option String
deriving DecidableEq, Repr

/-- `hydra.OAuth2ClientJSON.WithCredentials`: overlays the id, and the secret
only when the password is non-nil. -/
def OAuth2ClientJSON.withCredentials (oj : OAuth2ClientJSON)
    (credentials : Oauth2ClientCredentials) : OAuth2ClientJSON :=
  { oj with
    clientId := some credentials.id
    secret := match credentials.password with
      | some p => some p
      | none => oj.secret }

/-- Modelled from the spec: the resource's metadata field is "arbitrary
metadata (opaque JSON)" whose serialization "to the registry's structured-data
format" may fail (`OAuth2ClientSpec.Metadata` is absent from the checked-in
`api/v1alpha1` sources; only `hydra.FromOAuth2Client` marshalling it is
present). The opaque value is modelled together with its serialization
outcome. -/
inductive Metadata where
  | serializable (payload : String)
  | unserializable (msg : String)
deriving DecidableEq, Repr

/-- Serialization of the opaque metadata (the `json.Marshal` call inside
`hydra.FromOAuth2Client`). -/
def marshalMetadata : Metadata → Except String String
  | .serializable payload => .ok payload
  | .unserializable msg => .error msg

/-- Modelled from the spec: the optional custom registry endpoint descriptor
`{url, port, path, forwardedProto}` (spec section 6); field names follow the
controller's uses of `Spec.HydraAdmin`. -/
structure HydraAdmin where
  url : String
  port : Int
  endpoint : String
  forwardedProto : String
deriving DecidableEq, Repr

/-- Desired-state spec of the resource. `GrantTypes`, `ResponseTypes`,
`RedirectURIs`, `Scope`, `SecretName` come from the checked-in
`api/v1alpha1/oauth2client_types.go` (the enum/pattern newtypes are modelled as
plain strings, matching the identity string-slice conversions in the source);
`ClientName`, `PostLogoutRedirectURIs`, `AllowedCorsOrigins`, `Audience`,
`TokenEndpointAuthMethod`, `HydraAdmin`, `Metadata` are fields the controller
and the hydra types file read but that are missing from the checked-in spec
type, modelled from the spec (sections 3 and 6). -/
structure OAuth2ClientSpec where
  clientName : String
  grantTypes : List String
  responseTypes : List String
  redirectUris : List String
  postLogoutRedirectUris : List String
  allowedCorsOrigins : List String
  audience : List String
  scope : String
  secretName : String
  tokenEndpointAuthMethod : String
  hydraAdmin : HydraAdmin
  metadata : Metadata
deriving DecidableEq, Repr

def StatusRegistrationFailed : String := "CLIENT_REGISTRATION_FAILED"

def StatusCreateSecretFailed : String := "SECRET_CREATION_FAILED"

def StatusUpdateFailed : String := "CLIENT_UPDATE_FAILED"

def StatusInvalidSecret : String := "INVALID_SECRET"

/-- Modelled from the spec: the status code written when no registry endpoint
resolves (the `InvalidEndpoint` code of spec section 4.1; the controller
references `StatusInvalidHydraAddress`, absent from the checked-in
`api/v1alpha1` sources). -/
def StatusInvalidHydraAddress : String := "INVALID_HYDRA_ADDRESS"

/-- `v1alpha1.ReconciliationError`. -/
structure ReconciliationError where
  code : String
  description : String
deriving DecidableEq, Repr

/-- The zero value of `ReconciliationError`, written by
`ensureEmptyStatusError`. -/
def emptyReconciliationError : ReconciliationError :=
  { code := "", description := "" }

/-- `v1alpha1.OAuth2ClientStatus`. -/
structure OAuth2ClientStatus where
  observedGeneration : Int
  reconciliationError : ReconciliationError
deriving DecidableEq, Repr

/-- The `OAuth2Client` resource: object metadata fields the controller reads
(`Name`, `Namespace` as `nspace`, `Generation`, `DeletionTimestamp.IsZero()`,
`Finalizers`), its spec and its status. `TypeMeta`, `UID` and owner references
are only copied verbatim into the created secret in the source and are not
modelled. -/
structure OAuth2Client where
  name : String
  nspace : String
  generation : Int
  deletionTimestampIsZero : Bool
  finalizers : List String
  spec : OAuth2ClientSpec
  status : OAuth2ClientStatus
deriving DecidableEq, Repr

/-- The Go zero value of `OAuth2Client`, which is what
`r.Get` leaves in the local variable when the resource is not found. -/
def zeroOAuth2Client : OAuth2Client :=
  { name := ""
    nspace := ""
    generation := 0
    deletionTimestampIsZero := true
    finalizers := []
    spec :=
      { clientName := ""
        grantTypes := []
        responseTypes := []
        redirectUris := []
        postLogoutRedirectUris := []
        allowedCorsOrigins := []
        audience := []
        scope := ""
        secretName := ""
        tokenEndpointAuthMethod := ""
        hydraAdmin := { url := "", port := 0, endpoint := "", forwardedProto := "" }
        metadata := .serializable ("null") }
    status := { observedGeneration := 0, reconciliationError := emptyReconciliationError } }

/-- The owner string `fmt.Sprintf("%s/%s", c.Name, c.Namespace)`. -/
def ownerOf (c : OAuth2Client) : String := c.name ++ "/" ++ c.nspace

/-- `hydra.FromOAuth2Client`: converts the resource into the registry wire
representation; fails when the metadata cannot be marshalled. -/
def FromOAuth2Client (c : OAuth2Client) : Except String OAuth2ClientJSON :=
  match marshalMetadata c.spec.metadata with
  | .error e => .error ("unable to encode metadata property value to json: " ++ e)
  | .ok meta =>
    .ok
      { clientName := c.spec.clientName
        clientId := none
        secret := none
        grantTypes := c.spec.grantTypes
        redirectUris := c.spec.redirectUris
        postLogoutRedirectUris := c.spec.postLogoutRedirectUris
        allowedCorsOrigins := c.spec.allowedCorsOrigins
        responseTypes := c.spec.responseTypes
        audience := c.spec.audience
        scope := c.spec.scope
        owner := ownerOf c
        tokenEndpointAuthMethod := c.spec.tokenEndpointAuthMethod
        metadata := meta }

def ClientIDKey : String := "client_id"

def ClientSecretKey : String := "client_secret"

def FinalizerName : String := "finalizer.ory.hydra.sh"

def DefaultNamespace : String := "default"

/-- A Kubernetes secret: name, namespace and string data. -/
structure Secret where
  name : String
  nspace : String
  data : List (String × String)
deriving DecidableEq, Repr

/-- Map lookup on the secret's `Data` field. -/
def secretLookup (data : List (String × String)) (key : String) : Option String :=
  match data with
  | [] => none
  | (k, v) :: rest => if k = key then some v else secretLookup rest key

/-- `parseSecret`: requires `client_id`; `client_secret` is required unless the
token endpoint auth method is `none`. -/
def parseSecret (secret : Secret) (authMethod : String) :
    Except String Oauth2ClientCredentials :=
  match secretLookup secret.data ClientIDKey with
  | none => .error ("client_id property missing")
  | some id =>
    match secretLookup secret.data ClientSecretKey with
    | some psw => .ok { id := id, password := some psw }
    | none =>
      if authMethod ≠ "none" then .error ("client_secret property missing")
      else .ok { id := id, password := none }

/-- `containsString` helper from the controller. -/
def containsString (slice : List String) (s : String) : Bool :=
  match slice with
  | [] => false
  | item :: rest => if item = s then true else containsString rest s

/-- `removeString` helper from the controller. -/
def removeString (slice : List String) (s : String) : List String :=
  match slice with
  | [] => []
  | item :: rest => if item = s then removeString rest s else item :: removeString rest s

/-- The `clientKey` cache key of the endpoint-to-client cache. -/
structure ClientKey where
  url : String
  port : Int
  endpoint : String
  forwardedProto : String
deriving DecidableEq, Repr

/-- The cache key built by `getHydraClientForClient` from `Spec.HydraAdmin`. -/
def keyOf (admin : HydraAdmin) : ClientKey :=
  { url := admin.url
    port := admin.port
    endpoint := admin.endpoint
    forwardedProto := admin.forwardedProto }

/-- One external effect performed by a reconciliation pass, in order. Reads are
recorded as well as writes; the initial load of the reconciled resource itself
is performed unconditionally and is not recorded. `registryPost` carries the
created entry the registry answered with (`none` when the call failed);
`registryPut` carries whether the call succeeded. -/
inductive Event where
  | kubeGetSecret (name nspace : String)
  | kubeUpdate (c : OAuth2Client)
  | kubeStatusUpdate (c : OAuth2Client)
  | kubeCreateSecret (s : Secret)
  | factoryCall (key : ClientKey)
  | registryGet (id : String)
  | registryList
  | registryPost (sent : OAuth2ClientJSON) (created : Option OAuth2ClientJSON)
  | registryPut (sent : OAuth2ClientJSON) (succeeded : Bool)
  | registryDelete (id : String)
deriving DecidableEq, Repr

/-- Outcome of a Kubernetes `Get`: found, not-found, or another error. -/
inductive KubeResult (α : Type) where
  | ok (a : α)
  | notFound
  | err (msg : String)
deriving DecidableEq, Repr

/-- Oracle responses for every external call a pass can make. `Option String`
valued oracles answer `none` on success and the error message on failure. -/
structure World where
  getClient : KubeResult OAuth2Client
  getSecret : KubeResult Secret
  updateResource : OAuth2Client → Option String
  updateStatus : OAuth2Client → Option String
  createSecret : Secret → Option String
  factoryBuild : ClientKey → Option String
  registryGetById : String → Except String (Option OAuth2ClientJSON)
  registryListAll : Except String (List OAuth2ClientJSON)
  registryCreate : OAuth2ClientJSON → Except String OAuth2ClientJSON
  registryUpdate : OAuth2ClientJSON → Except String OAuth2ClientJSON
  registryRemove : String → Option String

/-- The endpoint-to-client cache of the reconciler: the association list of
`clientKey` to client instance, plus the allocator for fresh instances (the
factory returns a new instance object on every invocation; instances are
identified by allocation order). -/
structure RouterState where
  cache : List (ClientKey × Nat)
  nextId : Nat
deriving DecidableEq, Repr

/-- The `OAuth2ClientReconciler`: the default hydra client (if configured), the
controller namespace, and the endpoint-to-client cache. -/
structure Reconciler where
  hydraClient : Option Nat
  controllerNamespace : String
  router : RouterState
deriving DecidableEq, Repr

/-- Map access on the `oauth2Clients` cache. -/
def cacheLookup (cache : List (ClientKey × Nat)) (key : ClientKey) : Option Nat :=
  match cache with
  | [] => none
  | (k, v) :: rest => if k = key then some v else cacheLookup rest key

/-- `getHydraClientForClient`: when the resource declares a custom admin URL,
check or fill the per-key cache (constructing a fresh client via the factory on
a miss); otherwise fall back to the default client, failing when none is
configured. -/
def getHydraClientForClient (r : Reconciler) (w : World) (c : OAuth2Client) :
    Except String (Nat × Reconciler) × List Event :=
  if c.spec.hydraAdmin.url ≠ "" then
    let key := keyOf c.spec.hydraAdmin
    match cacheLookup r.router.cache key with
    | some cid => (.ok (cid, r), [])
    | none =>
      match w.factoryBuild key with
      | some e => (.error ("cannot create oauth2 client from CRD: " ++ e), [.factoryCall key])
      | none =>
        let cid := r.router.nextId
        (.ok (cid,
          { r with router := { cache := (key, cid) :: r.router.cache, nextId := cid + 1 } }),
          [.factoryCall key])
  else
    match r.hydraClient with
    | none => (.error ("Not default client or other clients configured"), [])
    | some hc => (.ok (hc, r), [])

/-- `updateClientStatus`: stamp `ObservedGeneration` and write the status
sub-resource. -/
def updateClientStatus (w : World) (c : OAuth2Client) :
    Except String Unit × List Event :=
  let c' := { c with status := { c.status with observedGeneration := c.generation } }
  match w.updateStatus c' with
  | some e => (.error e, [.kubeStatusUpdate c'])
  | none => (.ok (), [.kubeStatusUpdate c'])

/-- `updateReconciliationStatusError`: record a status code and description,
then write the status. -/
def updateReconciliationStatusError (w : World) (c : OAuth2Client)
    (code description : String) : Except String Unit × List Event :=
  updateClientStatus w
    { c with status :=
        { c.status with reconciliationError := { code := code, description := description } } }

/-- `ensureEmptyStatusError`: clear the reconciliation error, then write the
status. -/
def ensureEmptyStatusError (w : World) (c : OAuth2Client) :
    Except String Unit × List Event :=
  updateClientStatus w
    { c with status := { c.status with reconciliationError := emptyReconciliationError } }

/-- The deletion loop of `unregisterOAuth2Clients`: delete, in listing order,
every listed entry whose owner matches, stopping at the first failure. The Go
code dereferences `*cJSON.ClientID`; a nil id on a matching entry is a runtime
panic, modelled as an aborting error. -/
def deleteOwnedClients (w : World) (owner : String) :
    List OAuth2ClientJSON → Except String Unit × List Event
  | [] => (.ok (), [])
  | cJSON :: rest =>
    if cJSON.owner = owner then
      match cJSON.clientId with
      | none => (.error ("invalid memory address or nil pointer dereference"), [])
      | some cid =>
        match w.registryRemove cid with
        | some e => (.error e, [.registryDelete cid])
        | none =>
          let (res, tr) := deleteOwnedClients w owner rest
          (res, .registryDelete cid :: tr)
    else deleteOwnedClients w owner rest

/-- `unregisterOAuth2Clients`: return immediately when a required spec field is
empty (treated by the source as a delete after the finalizers have run);
otherwise resolve a client, list all registry entries, and delete the ones
owned by this resource. -/
def unregisterOAuth2Clients (r : Reconciler) (w : World) (c : OAuth2Client) :
    (Except String Unit × Reconciler) × List Event :=
  if c.spec.scope = "" ∨ c.spec.secretName = "" then ((.ok (), r), [])
  else
    match getHydraClientForClient r w c with
    | (.error e, tr) => ((.error e, r), tr)
    | (.ok (_, r'), tr) =>
      match w.registryListAll with
      | .error e => ((.error e, r'), tr ++ [.registryList])
      | .ok clients =>
        let (res, tr₂) := deleteOwnedClients w (ownerOf c) clients
        ((res, r'), tr ++ [.registryList] ++ tr₂)

/-- `registerOAuth2Client`: purge entries already owned by this resource, then
convert and post. With explicit credentials the response is discarded; without
credentials the registry-assigned credentials are persisted into a new secret.
Status mutations follow the source exactly, including the fall-through from a
failed post or secret creation to `ensureEmptyStatusError` where the source
does so. The source mutates the status of the in-memory resource before each
status write; every status write overwrites both mutated fields, so each write
is expressed from the original resource. -/
def registerOAuth2Client (r : Reconciler) (w : World) (c : OAuth2Client)
    (credentials : Option Oauth2ClientCredentials) :
    (Except String Unit × Reconciler) × List Event :=
  match unregisterOAuth2Clients r w c with
  | ((.error e, r'), tr) => ((.error e, r'), tr)
  | ((.ok _, r'), tr) =>
    match getHydraClientForClient r' w c with
    | (.error e, tr₂) => ((.error e, r'), tr ++ tr₂)
    | (.ok (_, r₂), tr₂) =>
      match FromOAuth2Client c with
      | .error e =>
        let (res, tr₃) := updateReconciliationStatusError w c StatusRegistrationFailed e
        match res with
        | .error ue => ((.error ue, r₂), tr ++ tr₂ ++ tr₃)
        | .ok _ => ((.error e, r₂), tr ++ tr₂ ++ tr₃)
      | .ok oauth2client =>
        match credentials with
        | some creds =>
          let sent := oauth2client.withCredentials creds
          match w.registryCreate sent with
          | .error e =>
            let (res, tr₃) := updateReconciliationStatusError w c StatusRegistrationFailed e
            match res with
            | .error ue => ((.error ue, r₂), tr ++ tr₂ ++ [.registryPost sent none] ++ tr₃)
            | .ok _ =>
              let (res₂, tr₄) := ensureEmptyStatusError w c
              ((res₂, r₂), tr ++ tr₂ ++ [.registryPost sent none] ++ tr₃ ++ tr₄)
          | .ok created =>
            let (res₂, tr₄) := ensureEmptyStatusError w c
            ((res₂, r₂), tr ++ tr₂ ++ [.registryPost sent (some created)] ++ tr₄)
        | none =>
          match w.registryCreate oauth2client with
          | .error e =>
            let (res, tr₃) := updateReconciliationStatusError w c StatusRegistrationFailed e
            match res with
            | .error ue => ((.error ue, r₂), tr ++ tr₂ ++ [.registryPost oauth2client none] ++ tr₃)
            | .ok _ => ((.ok (), r₂), tr ++ tr₂ ++ [.registryPost oauth2client none] ++ tr₃)
          | .ok created =>
            match created.clientId with
            | none =>
              ((.error ("invalid memory address or nil pointer dereference"), r₂),
                tr ++ tr₂ ++ [.registryPost oauth2client (some created)])
            | some cid =>
              let clientSecret : Secret :=
                { name := c.spec.secretName
                  nspace := c.nspace
                  data :=
                    match created.secret with
                    | some s => [(ClientIDKey, cid), (ClientSecretKey, s)]
                    | none => [(ClientIDKey, cid)] }
              match w.createSecret clientSecret with
              | some e =>
                let (res, tr₃) := updateReconciliationStatusError w c StatusCreateSecretFailed e
                match res with
                | .error ue =>
                  ((.error ue, r₂),
                    tr ++ tr₂ ++ [.registryPost oauth2client (some created),
                      .kubeCreateSecret clientSecret] ++ tr₃)
                | .ok _ =>
                  let (res₂, tr₄) := ensureEmptyStatusError w c
                  ((res₂, r₂),
                    tr ++ tr₂ ++ [.registryPost oauth2client (some created),
                      .kubeCreateSecret clientSecret] ++ tr₃ ++ tr₄)
              | none =>
                let (res₂, tr₄) := ensureEmptyStatusError w c
                ((res₂, r₂),
                  tr ++ tr₂ ++ [.registryPost oauth2client (some created),
                    .kubeCreateSecret clientSecret] ++ tr₄)

/-- `updateRegisteredOAuth2Client`: convert, overlay the credentials, and put;
a failed put records `UpdateFailed` and then falls through to clearing the
status, as the source does. -/
def updateRegisteredOAuth2Client (r : Reconciler) (w : World) (c : OAuth2Client)
    (credentials : Oauth2ClientCredentials) :
    (Except String Unit × Reconciler) × List Event :=
  match getHydraClientForClient r w c with
  | (.error e, tr) => ((.error e, r), tr)
  | (.ok (_, r'), tr) =>
    match FromOAuth2Client c with
    | .error e =>
      let (res, tr₂) := updateReconciliationStatusError w c StatusUpdateFailed e
      match res with
      | .error ue => ((.error ue, r'), tr ++ tr₂)
      | .ok _ => ((.error e, r'), tr ++ tr₂)
    | .ok oauth2client =>
      let sent := oauth2client.withCredentials credentials
      match w.registryUpdate sent with
      | .error e =>
        let (res, tr₂) := updateReconciliationStatusError w c StatusUpdateFailed e
        match res with
        | .error ue => ((.error ue, r'), tr ++ [.registryPut sent false] ++ tr₂)
        | .ok _ =>
          let (res₂, tr₃) := ensureEmptyStatusError w c
          ((res₂, r'), tr ++ [.registryPut sent false] ++ tr₂ ++ tr₃)
      | .ok _ =>
        let (res₂, tr₃) := ensureEmptyStatusError w c
        ((res₂, r'), tr ++ [.registryPut sent true] ++ tr₃)

/-- A reconcile request: the namespaced name delivered by the watcher. -/
structure Request where
  name : String
  nspace : String
deriving DecidableEq, Repr

/-- The tail of `Reconcile` from the secret load onward (the sync body shared
by the finalizer-just-attached and finalizer-already-present paths, which the
source reaches by falling through). -/
def reconcileSync (r : Reconciler) (w : World) (req : Request) (c : OAuth2Client) :
    (Except String Unit × Reconciler) × List Event :=
  let getSecretEv := Event.kubeGetSecret c.spec.secretName req.nspace
  match w.getSecret with
  | .notFound =>
    match registerOAuth2Client r w c none with
    | ((.error e, r'), tr) => ((.error e, r'), getSecretEv :: tr)
    | ((.ok _, r'), tr) => ((.ok (), r'), getSecretEv :: tr)
  | .err e => ((.error e, r), [getSecretEv])
  | .ok secret =>
    match parseSecret secret c.spec.tokenEndpointAuthMethod with
    | .error e =>
      let (res, tr) := updateReconciliationStatusError w c StatusInvalidSecret e
      match res with
      | .error ue => ((.error ue, r), getSecretEv :: tr)
      | .ok _ => ((.ok (), r), getSecretEv :: tr)
    | .ok credentials =>
      match getHydraClientForClient r w c with
      | (.error e, tr) =>
        let (res, tr₂) := updateReconciliationStatusError w c StatusInvalidHydraAddress e
        match res with
        | .error ue => ((.error ue, r), getSecretEv :: (tr ++ tr₂))
        | .ok _ => ((.ok (), r), getSecretEv :: (tr ++ tr₂))
      | (.ok (_, r'), tr) =>
        match w.registryGetById credentials.id with
        | .error e => ((.error e, r'), getSecretEv :: (tr ++ [.registryGet credentials.id]))
        | .ok (some fetched) =>
          if c.generation = c.status.observedGeneration then
            ((.ok (), r'), getSecretEv :: (tr ++ [.registryGet credentials.id]))
          else if fetched.owner ≠ ownerOf c then
            let (res, tr₂) := updateReconciliationStatusError w c StatusInvalidSecret
              ("ID provided in secret " ++ secret.name ++ "/" ++ secret.nspace ++
                " is assigned to another resource")
            match res with
            | .error ue =>
              ((.error ue, r'), getSecretEv :: (tr ++ [.registryGet credentials.id] ++ tr₂))
            | .ok _ =>
              ((.ok (), r'), getSecretEv :: (tr ++ [.registryGet credentials.id] ++ tr₂))
          else
            match updateRegisteredOAuth2Client r' w c credentials with
            | ((.error e, r₂), tr₂) =>
              ((.error e, r₂), getSecretEv :: (tr ++ [.registryGet credentials.id] ++ tr₂))
            | ((.ok _, r₂), tr₂) =>
              ((.ok (), r₂), getSecretEv :: (tr ++ [.registryGet credentials.id] ++ tr₂))
        | .ok none =>
          match registerOAuth2Client r' w c (some credentials) with
          | ((.error e, r₂), tr₂) =>
            ((.error e, r₂), getSecretEv :: (tr ++ [.registryGet credentials.id] ++ tr₂))
          | ((.ok _, r₂), tr₂) =>
            ((.ok (), r₂), getSecretEv :: (tr ++ [.registryGet credentials.id] ++ tr₂))

/-- One full reconciliation pass (`Reconcile`): load the resource (defensive
unregistration of the zero-valued resource on not-found), filter by controller
namespace, handle the deletion protocol and the finalizer attachment, then run
the sync body. -/
def Reconcile (r : Reconciler) (w : World) (req : Request) :
    (Except String Unit × Reconciler) × List Event :=
  match w.getClient with
  | .notFound =>
    match unregisterOAuth2Clients r w zeroOAuth2Client with
    | ((.error e, r'), tr) => ((.error e, r'), tr)
    | ((.ok _, r'), tr) => ((.ok (), r'), tr)
  | .err e => ((.error e, r), [])
  | .ok oauth2client =>
    if r.controllerNamespace ≠ "" ∧ req.nspace ≠ r.controllerNamespace then
      ((.ok (), r), [])
    else
      if oauth2client.deletionTimestampIsZero then
        if ¬ containsString oauth2client.finalizers FinalizerName then
          let c' := { oauth2client with finalizers := oauth2client.finalizers ++ [FinalizerName] }
          match w.updateResource c' with
          | some e => ((.error e, r), [.kubeUpdate c'])
          | none =>
            match reconcileSync r w req c' with
            | ((res, r'), tr) => ((res, r'), .kubeUpdate c' :: tr)
        else reconcileSync r w req oauth2client
      else
        if containsString oauth2client.finalizers FinalizerName then
          match unregisterOAuth2Clients r w oauth2client with
          | ((.error e, r'), tr) => ((.error e, r'), tr)
          | ((.ok _, r'), tr) =>
            let c' := { oauth2client with
              finalizers := removeString oauth2client.finalizers FinalizerName }
            match w.updateResource c' with
            | some e => ((.error e, r'), tr ++ [.kubeUpdate c'])
            | none => ((.ok (), r'), tr ++ [.kubeUpdate c'])
        else ((.ok (), r), [])

/-- Whether an event mutates the registry. -/
def Event.isRegistryMutation : Event → Bool
  | .registryPost _ _ => true
  | .registryPut _ _ => true
  | .registryDelete _ => true
  | _ => false

/-- Whether an event talks to the registry at all (reads included). -/
def Event.isRegistryIO : Event → Bool
  | .registryGet _ => true
  | .registryList => true
  | e => e.isRegistryMutation

/-- Whether an event writes the resource's status sub-resource. -/
def Event.isStatusWrite : Event → Bool
  | .kubeStatusUpdate _ => true
  | _ => false

/-- Modelled from the spec: the remote registry's state transition under a
successful create, update, or delete call (section 6 wire contract: entries
are keyed by client id; a create stores the entry the registry answered with,
an update overwrites the entry with the sent payload, a delete removes the
entries with the given id). The registry implementation itself is outside the
controller sources. -/
def applyEvent (reg : List OAuth2ClientJSON) : Event → List OAuth2ClientJSON
  | .registryDelete cid => reg.filter (fun e => e.clientId ≠ some cid)
  | .registryPost _ (some created) => reg ++ [created]
  | .registryPut sent true => reg.map (fun e => if e.clientId = sent.clientId then sent else e)
  | _ => reg

/-- Registry state after a trace of effects. -/
def applyTrace (reg : List OAuth2ClientJSON) (tr : List Event) : List OAuth2ClientJSON :=
  tr.foldl applyEvent reg

/-- The resource after `updateReconciliationStatusError`, as it is written by
the status update: error fields set and `ObservedGeneration` stamped. -/
def withStatusCode (c : OAuth2Client) (code description : String) : OAuth2Client :=
  { c with status :=
      { observedGeneration := c.generation
        reconciliationError := { code := code, description := description } } }

/-- Ids of the listed entries owned by the given owner string (the entries the
unregistration loop deletes). -/
def ownedIds (clients : List OAuth2ClientJSON) (owner : String) : List String :=
  (clients.filter (fun x => x.owner = owner)).filterMap (fun x => x.clientId)

/- Concrete fixtures used by witnesses and counterexamples. -/

/-- Oracle world where every call succeeds blandly. -/
def trivWorld : World :=
  { getClient := .notFound
    getSecret := .notFound
    updateResource := fun _ => none
    updateStatus := fun _ => none
    createSecret := fun _ => none
    factoryBuild := fun _ => none
    registryGetById := fun _ => .ok none
    registryListAll := .ok []
    registryCreate := fun j => .ok j
    registryUpdate := fun j => .ok j
    registryRemove := fun _ => none }

def adminNone : HydraAdmin := { url := "", port := 0, endpoint := "", forwardedProto := "" }

def specStd : OAuth2ClientSpec :=
  { clientName := "myclient"
    grantTypes := ["client_credentials"]
    responseTypes := []
    redirectUris := []
    postLogoutRedirectUris := []
    allowedCorsOrigins := []
    audience := []
    scope := "read write"
    secretName := "myclient-secret"
    tokenEndpointAuthMethod := "client_secret_basic"
    hydraAdmin := adminNone
    metadata := .serializable ("null") }

def clientStd : OAuth2Client :=
  { name := "myclient"
    nspace := "default"
    generation := 2
    deletionTimestampIsZero := true
    finalizers := [FinalizerName]
    spec := specStd
    status := { observedGeneration := 1, reconciliationError := emptyReconciliationError } }

def reqStd : Request := { name := "myclient", nspace := "default" }

def recStd : Reconciler :=
  { hydraClient := some 0, controllerNamespace := "", router := { cache := [], nextId := 1 } }

/-- A registry entry with the given id and owner, other fields blank. -/
def jsonEntry (cid : Option String) (owner : String) : OAuth2ClientJSON :=
  { clientName := ""
    clientId := cid
    secret := none
    grantTypes := []
    redirectUris := []
    postLogoutRedirectUris := []
    allowedCorsOrigins := []
    responseTypes := []
    audience := []
    scope := ""
    owner := owner
    tokenEndpointAuthMethod := ""
    metadata := "" }

def secretStd : Secret :=
  { name := "myclient-secret"
    nspace := "default"
    data := [(ClientIDKey, "cid-1"), (ClientSecretKey, "pw")] }

/- Helper lemmas shared by the claim theorems. -/

theorem updateReconciliationStatusError_eq (w : World) (c : OAuth2Client) (code d : String) :
    updateReconciliationStatusError w c code d =
      (match w.updateStatus (withStatusCode c code d) with
        | some e => (.error e, [.kubeStatusUpdate (withStatusCode c code d)])
        | none => (.ok (), [.kubeStatusUpdate (withStatusCode c code d)])) := rfl

theorem ensureEmptyStatusError_eq (w : World) (c : OAuth2Client) :
    ensureEmptyStatusError w c =
      (match w.updateStatus (withStatusCode c "" "") with
        | some e => (.error e, [.kubeStatusUpdate (withStatusCode c "" "")])
        | none => (.ok (), [.kubeStatusUpdate (withStatusCode c "" "")])) := rfl

theorem getHydraClientForClient_events (r : Reconciler) (w : World) (c : OAuth2Client) :
    ∀ ev ∈ (getHydraClientForClient r w c).2, ∃ k, ev = Event.factoryCall k := by
  unfold getHydraClientForClient
  intro ev hev
  by_cases hurl : c.spec.hydraAdmin.url ≠ ""
  · simp only [if_pos hurl] at hev
    rcases hlk : cacheLookup r.router.cache (keyOf c.spec.hydraAdmin) with _ | cid
    · rw [hlk] at hev
      rcases hf : w.factoryBuild (keyOf c.spec.hydraAdmin) with _ | e
      · rw [hf] at hev
        simp at hev
        exact ⟨_, hev⟩
      · rw [hf] at hev
        simp at hev
        exact ⟨_, hev⟩
    · rw [hlk] at hev
      simp at hev
  · simp only [if_neg hurl] at hev
    rcases hd : r.hydraClient with _ | hc
    · rw [hd] at hev; simp at hev
    · rw [hd] at hev; simp at hev

/-- C10 (implicit namespace filter): with a non-empty controller namespace and
a request in a different namespace, the pass stops right after the load with
success and an empty effect trace: no registry call, no secret access, no
finalizer or status mutation. -/
theorem C10_namespace_filter (r : Reconciler) (w : World) (req : Request) (c : OAuth2Client)
    (hget : w.getClient = .ok c)
    (hcn : r.controllerNamespace ≠ "")
    (hreq : req.nspace ≠ r.controllerNamespace) :
    Reconcile r w req = ((.ok (), r), []) := by
  unfold Reconcile
  rw [hget]
  simp [hcn, hreq]

def wC10 : World := { trivWorld with getClient := .ok clientStd }

def recC10 : Reconciler := { recStd with controllerNamespace := "hydra-system" }

theorem C10_namespace_filter_witness :
    wC10.getClient = .ok clientStd ∧ recC10.controllerNamespace ≠ "" ∧
      reqStd.nspace ≠ recC10.controllerNamespace ∧
      Reconcile recC10 wC10 reqStd = ((.ok (), recC10), []) :=
  ⟨rfl, by decide, by decide,
    C10_namespace_filter recC10 wC10 reqStd clientStd rfl (by decide) (by decide)⟩

/-- C8 (idempotence of an unchanged resource): finalizer present, secret
parses, client resolves, registry entry fetched; when the generation equals
the observed generation the pass returns success and its whole trace is the
secret read, the resolution events, and the registry read — so it contains no
registry mutation, no status write, no secret creation and no resource
update. -/
theorem C8_unchanged_noop (r r' : Reconciler) (w : World) (req : Request)
    (c : OAuth2Client) (secret : Secret) (creds : Oauth2ClientCredentials)
    (fetched : OAuth2ClientJSON) (hc : Nat) (trf : List Event)
    (hget : w.getClient = .ok c)
    (hns : r.controllerNamespace = "")
    (hlive : c.deletionTimestampIsZero = true)
    (hfin : containsString c.finalizers FinalizerName = true)
    (hsec : w.getSecret = .ok secret)
    (hparse : parseSecret secret c.spec.tokenEndpointAuthMethod = .ok creds)
    (hres : getHydraClientForClient r w c = (.ok (hc, r'), trf))
    (hfound : w.registryGetById creds.id = .ok (some fetched))
    (hgen : c.generation = c.status.observedGeneration) :
    Reconcile r w req = ((.ok (), r'),
      Event.kubeGetSecret c.spec.secretName req.nspace :: (trf ++ [Event.registryGet creds.id])) ∧
    ∀ ev ∈ (Reconcile r w req).2, ev.isRegistryMutation = false ∧ ev.isStatusWrite = false ∧
      (∀ s, ev ≠ Event.kubeCreateSecret s) ∧ (∀ x, ev ≠ Event.kubeUpdate x) := by
  have hmain : Reconcile r w req = ((.ok (), r'),
      Event.kubeGetSecret c.spec.secretName req.nspace :: (trf ++ [Event.registryGet creds.id])) := by
    unfold Reconcile reconcileSync
    rw [hget]
    simp [hns, hlive, hfin, hsec, hparse, hres, hfound, hgen]
  refine ⟨hmain, ?_⟩
  have hfac := getHydraClientForClient_events r w c
  rw [hres] at hfac
  intro ev hev
  rw [hmain] at hev
  simp at hev
  rcases hev with rfl | hev | rfl
  · exact ⟨rfl, rfl, fun s => by simp, fun x => by simp⟩
  · rcases hfac ev hev with ⟨k, rfl⟩
    exact ⟨rfl, rfl, fun s => by simp, fun x => by simp⟩
  · exact ⟨rfl, rfl, fun s => by simp, fun x => by simp⟩

def wC8 : World :=
  { trivWorld with
    getClient := .ok { clientStd with generation := 1 }
    getSecret := .ok secretStd
    registryGetById := fun cid =>
      if cid = "cid-1" then .ok (some (jsonEntry (some ("cid-1")) ("myclient/default")))
      else .ok none }

theorem C8_unchanged_noop_witness :
    wC8.getClient = .ok { clientStd with generation := 1 } ∧
    recStd.controllerNamespace = "" ∧
    parseSecret secretStd specStd.tokenEndpointAuthMethod = .ok { id := "cid-1", password := some ("pw") } ∧
    getHydraClientForClient recStd wC8 { clientStd with generation := 1 } = (.ok (0, recStd), []) ∧
    wC8.registryGetById ("cid-1") = .ok (some (jsonEntry (some ("cid-1")) ("myclient/default"))) ∧
    Reconcile recStd wC8 reqStd = ((.ok (), recStd),
      Event.kubeGetSecret ("myclient-secret") ("default") :: ([] ++ [Event.registryGet ("cid-1")])) :=
  ⟨rfl, rfl, by decide, by decide, by decide,
    (C8_unchanged_noop recStd recStd wC8 reqStd { clientStd with generation := 1 } secretStd
      { id := "cid-1", password := some ("pw") }
      (jsonEntry (some ("cid-1")) ("myclient/default")) 0 []
      rfl rfl (by decide) (by decide) rfl (by decide) (by decide) (by decide) (by decide)).1⟩

def cC1 : OAuth2Client := { clientStd with generation := 1 }

def fetchedC1 : OAuth2ClientJSON := jsonEntry (some ("cid-1")) ("other/default")

def wC1 : World :=
  { trivWorld with
    getClient := .ok cC1
    getSecret := .ok secretStd
    registryGetById := fun cid => if cid = "cid-1" then .ok (some fetchedC1) else .ok none }

/-- C1 counterexample: the generation check runs before the owner check, so a
pass whose fetched entry has a foreign owner but whose generation equals the
observed generation returns success with no status write at all — the claim's
"records an InvalidSecret status … regardless of whether the resource's
generation equals its observedGeneration" fails on this input. -/
theorem C1_counterexample :
    fetchedC1.owner ≠ ownerOf cC1 ∧
    cC1.generation = cC1.status.observedGeneration ∧
    wC1.registryGetById ("cid-1") = .ok (some fetchedC1) ∧
    Reconcile recStd wC1 reqStd = ((.ok (), recStd),
      [Event.kubeGetSecret ("myclient-secret") ("default"), Event.registryGet ("cid-1")]) := by
  decide

/-- C1 (amended): when the fetched entry's owner differs from the resource's
identity the pass never mutates the registry and returns success; it records
an InvalidSecret status only when the generation differs from the observed
generation, and when they are equal it returns success without any status
write (the generation short-circuit runs before the owner check). -/
theorem C1_conflict (r r' : Reconciler) (w : World) (req : Request)
    (c : OAuth2Client) (secret : Secret) (creds : Oauth2ClientCredentials)
    (fetched : OAuth2ClientJSON) (hc : Nat) (trf : List Event)
    (hget : w.getClient = .ok c)
    (hns : r.controllerNamespace = "")
    (hlive : c.deletionTimestampIsZero = true)
    (hfin : containsString c.finalizers FinalizerName = true)
    (hsec : w.getSecret = .ok secret)
    (hparse : parseSecret secret c.spec.tokenEndpointAuthMethod = .ok creds)
    (hres : getHydraClientForClient r w c = (.ok (hc, r'), trf))
    (hfound : w.registryGetById creds.id = .ok (some fetched))
    (howner : fetched.owner ≠ ownerOf c)
    (hstatus : ∀ x, w.updateStatus x = none) :
    (c.generation ≠ c.status.observedGeneration →
      Reconcile r w req = ((.ok (), r'),
        Event.kubeGetSecret c.spec.secretName req.nspace ::
          (trf ++ [Event.registryGet creds.id] ++
            [Event.kubeStatusUpdate (withStatusCode c StatusInvalidSecret
              ("ID provided in secret " ++ secret.name ++ "/" ++ secret.nspace ++
                " is assigned to another resource"))]))) ∧
    (c.generation = c.status.observedGeneration →
      Reconcile r w req = ((.ok (), r'),
        Event.kubeGetSecret c.spec.secretName req.nspace ::
          (trf ++ [Event.registryGet creds.id]))) ∧
    (∀ ev ∈ (Reconcile r w req).2, ev.isRegistryMutation = false) := by
  have hfac := getHydraClientForClient_events r w c
  rw [hres] at hfac
  by_cases hgen : c.generation = c.status.observedGeneration
  · have hmain : Reconcile r w req = ((.ok (), r'),
        Event.kubeGetSecret c.spec.secretName req.nspace ::
          (trf ++ [Event.registryGet creds.id])) := by
      unfold Reconcile reconcileSync
      rw [hget]
      simp [hns, hlive, hfin, hsec, hparse, hres, hfound, hgen]
    refine ⟨fun h => absurd hgen h, fun _ => hmain, ?_⟩
    intro ev hev
    rw [hmain] at hev
    simp at hev
    rcases hev with rfl | hev | rfl
    · rfl
    · rcases hfac ev hev with ⟨k, rfl⟩; rfl
    · rfl
  · have hmain : Reconcile r w req = ((.ok (), r'),
        Event.kubeGetSecret c.spec.secretName req.nspace ::
          (trf ++ [Event.registryGet creds.id] ++
            [Event.kubeStatusUpdate (withStatusCode c StatusInvalidSecret
              ("ID provided in secret " ++ secret.name ++ "/" ++ secret.nspace ++
                " is assigned to another resource"))])) := by
      unfold Reconcile reconcileSync
      rw [hget]
      simp [hns, hlive, hfin, hsec, hparse, hres, hfound, hgen, howner,
        updateReconciliationStatusError_eq, hstatus]
    refine ⟨fun _ => hmain, fun h => absurd h hgen, ?_⟩
    intro ev hev
    rw [hmain] at hev
    simp at hev
    rcases hev with rfl | hev | rfl | rfl
    · rfl
    · rcases hfac ev hev with ⟨k, rfl⟩; rfl
    · rfl
    · rfl

def wC1b : World :=
  { trivWorld with
    getClient := .ok clientStd
    getSecret := .ok secretStd
    registryGetById := fun cid => if cid = "cid-1" then .ok (some fetchedC1) else .ok none }

theorem C1_conflict_witness :
    (wC1b.getClient = .ok clientStd ∧
      recStd.controllerNamespace = "" ∧
      clientStd.deletionTimestampIsZero = true ∧
      containsString clientStd.finalizers FinalizerName = true ∧
      wC1b.getSecret = .ok secretStd ∧
      parseSecret secretStd clientStd.spec.tokenEndpointAuthMethod =
        .ok { id := "cid-1", password := some ("pw") } ∧
      getHydraClientForClient recStd wC1b clientStd = (.ok (0, recStd), []) ∧
      wC1b.registryGetById ("cid-1") = .ok (some fetchedC1) ∧
      fetchedC1.owner ≠ ownerOf clientStd ∧
      (∀ x, wC1b.updateStatus x = none)) ∧
    (clientStd.generation ≠ clientStd.status.observedGeneration →
      Reconcile recStd wC1b reqStd = ((.ok (), recStd),
        Event.kubeGetSecret clientStd.spec.secretName reqStd.nspace ::
          ([] ++ [Event.registryGet ("cid-1")] ++
            [Event.kubeStatusUpdate (withStatusCode clientStd StatusInvalidSecret
              ("ID provided in secret " ++ secretStd.name ++ "/" ++ secretStd.nspace ++
                " is assigned to another resource"))]))) :=
  ⟨⟨rfl, rfl, rfl, by decide, rfl, by decide, by decide, by decide, by decide, fun _ => rfl⟩,
    (C1_conflict recStd recStd wC1b reqStd clientStd secretStd
      { id := "cid-1", password := some ("pw") } fetchedC1 0 []
      rfl rfl rfl (by decide) rfl (by decide) (by decide) (by decide) (by decide)
      (fun _ => rfl)).1⟩

def cC2 : OAuth2Client := { clientStd with finalizers := [] }

def wC2 : World :=
  { trivWorld with
    getClient := .ok cC2
    getSecret := .notFound
    registryCreate := fun j => .ok { j with clientId := some ("new-id"), secret := some ("new-secret") } }

/-- C2 counterexample: a live resource without the finalizer has the finalizer
attached and persisted, and the very same pass then performs registry I/O
(here: a registry list and a create), contradicting the claim that such a pass
only attaches the finalizer and defers registry effects to a later
invocation. -/
theorem C2_counterexample :
    containsString cC2.finalizers FinalizerName = false ∧
    cC2.deletionTimestampIsZero = true ∧
    (Reconcile recStd wC2 reqStd).2.head? =
      some (Event.kubeUpdate { cC2 with finalizers := [FinalizerName] }) ∧
    ((Reconcile recStd wC2 reqStd).2.filter Event.isRegistryIO ≠ []) := by
  decide

/-- C2 (amended): on a live resource without the finalizer the pass attaches
the finalizer and persists it as its first effect, before any registry I/O; if
that persist fails the pass stops with the error and no registry I/O at all;
if it succeeds the same pass continues into the sync body, so registry I/O may
happen in the same pass that attached the finalizer. -/
theorem C2_finalizer_first (r : Reconciler) (w : World) (req : Request) (c : OAuth2Client)
    (hget : w.getClient = .ok c)
    (hns : r.controllerNamespace = "")
    (hlive : c.deletionTimestampIsZero = true)
    (hfin : containsString c.finalizers FinalizerName = false) :
    (∀ e, w.updateResource { c with finalizers := c.finalizers ++ [FinalizerName] } = some e →
      Reconcile r w req = ((.error e, r),
        [Event.kubeUpdate { c with finalizers := c.finalizers ++ [FinalizerName] }])) ∧
    (w.updateResource { c with finalizers := c.finalizers ++ [FinalizerName] } = none →
      ∃ res r' tr, Reconcile r w req =
        ((res, r'), Event.kubeUpdate { c with finalizers := c.finalizers ++ [FinalizerName] } :: tr)) := by
  obtain ⟨cn, cns, cg, cd, cf, cs, cst⟩ := c
  dsimp only at hlive hfin ⊢
  subst hlive
  constructor
  · intro e he
    unfold Reconcile
    rw [hget]
    simp [hns, hfin, he]
  · intro hok
    unfold Reconcile
    rw [hget]
    rcases h : reconcileSync r w req
      { name := cn, nspace := cns, generation := cg, deletionTimestampIsZero := true,
        finalizers := cf ++ [FinalizerName], spec := cs, status := cst }
      with ⟨⟨res, r'⟩, tr⟩
    refine ⟨res, r', tr, ?_⟩
    simp [hns, hfin, hok, h]

theorem C2_finalizer_first_witness :
    (wC2.getClient = .ok cC2 ∧
      recStd.controllerNamespace = "" ∧
      cC2.deletionTimestampIsZero = true ∧
      containsString cC2.finalizers FinalizerName = false ∧
      wC2.updateResource { cC2 with finalizers := cC2.finalizers ++ [FinalizerName] } = none) ∧
    (∃ res r' tr, Reconcile recStd wC2 reqStd =
      ((res, r'), Event.kubeUpdate { cC2 with finalizers := cC2.finalizers ++ [FinalizerName] } :: tr)) :=
  ⟨⟨rfl, rfl, rfl, by decide, rfl⟩,
    (C2_finalizer_first recStd wC2 reqStd cC2 rfl rfl rfl (by decide)).2 rfl⟩

def wC3 : World :=
  { trivWorld with
    getClient := .notFound
    registryListAll := .ok [jsonEntry (some ("cid-7")) ("myclient/default")] }

/-- C3 counterexample: when the resource is absent the pass calls the
unregistration routine on the Go zero value of the resource, whose empty
required spec fields make the routine return immediately — so even though the
registry holds an entry owned by the requested identity, the pass performs no
registry call at all (no list, no delete) and the leftover entry survives,
contradicting the claim that owned leftovers are actually deleted. -/
theorem C3_counterexample :
    wC3.registryListAll = .ok [jsonEntry (some ("cid-7")) (reqStd.name ++ "/" ++ reqStd.nspace)] ∧
    wC3.getClient = .notFound ∧
    Reconcile recStd wC3 reqStd = ((.ok (), recStd), []) := by
  decide

/-- C3 (amended): when the resource is absent from the store the pass invokes
the unregistration routine on the zero-valued resource; because the zero
value's scope and secretName are empty the routine returns at its guard, so
the pass makes no registry call, deletes nothing, and returns success. -/
theorem C3_absent_noop (r : Reconciler) (w : World) (req : Request)
    (hget : w.getClient = .notFound) :
    Reconcile r w req = ((.ok (), r), []) := by
  unfold Reconcile
  rw [hget]
  simp [unregisterOAuth2Clients, zeroOAuth2Client]

theorem C3_absent_noop_witness :
    wC3.getClient = .notFound ∧
      Reconcile recStd wC3 reqStd = ((.ok (), recStd), []) :=
  ⟨rfl, C3_absent_noop recStd wC3 reqStd rfl⟩

def recC5 : Reconciler := { recStd with hydraClient := none }

def wC5 : World := { trivWorld with getClient := .ok clientStd, getSecret := .ok secretStd }

/-- C5 counterexample: with no custom endpoint and no default client the sync
pass does not return a retryable error — it records a terminal
InvalidHydraAddress status on the resource and returns success. -/
theorem C5_counterexample :
    clientStd.spec.hydraAdmin.url = "" ∧
    recC5.hydraClient = none ∧
    Reconcile recC5 wC5 reqStd = ((.ok (), recC5),
      [Event.kubeGetSecret ("myclient-secret") ("default"),
        Event.kubeStatusUpdate (withStatusCode clientStd StatusInvalidHydraAddress
          ("Not default client or other clients configured"))]) := by
  decide

/-- C5 (amended): when no registry client resolves during the sync pass, the
pass records an InvalidHydraAddress status code with the resolution error as
description on the resource and returns success (the error is not propagated
to the scheduler; only a failure of the status write itself would be). -/
theorem C5_config_error_status (r : Reconciler) (w : World) (req : Request)
    (c : OAuth2Client) (secret : Secret) (creds : Oauth2ClientCredentials)
    (e : String) (trf : List Event)
    (hget : w.getClient = .ok c)
    (hns : r.controllerNamespace = "")
    (hlive : c.deletionTimestampIsZero = true)
    (hfin : containsString c.finalizers FinalizerName = true)
    (hsec : w.getSecret = .ok secret)
    (hparse : parseSecret secret c.spec.tokenEndpointAuthMethod = .ok creds)
    (hres : getHydraClientForClient r w c = (.error e, trf))
    (hstatus : ∀ x, w.updateStatus x = none) :
    Reconcile r w req = ((.ok (), r),
      Event.kubeGetSecret c.spec.secretName req.nspace ::
        (trf ++ [Event.kubeStatusUpdate (withStatusCode c StatusInvalidHydraAddress e)])) ∧
    ∀ ev ∈ (Reconcile r w req).2, ev.isRegistryMutation = false := by
  have hfac := getHydraClientForClient_events r w c
  rw [hres] at hfac
  have hmain : Reconcile r w req = ((.ok (), r),
      Event.kubeGetSecret c.spec.secretName req.nspace ::
        (trf ++ [Event.kubeStatusUpdate (withStatusCode c StatusInvalidHydraAddress e)])) := by
    unfold Reconcile reconcileSync
    rw [hget]
    simp [hns, hlive, hfin, hsec, hparse, hres, updateReconciliationStatusError_eq, hstatus]
  refine ⟨hmain, ?_⟩
  intro ev hev
  rw [hmain] at hev
  simp at hev
  rcases hev with rfl | hev | rfl
  · rfl
  · rcases hfac ev hev with ⟨k, rfl⟩; rfl
  · rfl

theorem C5_config_error_status_witness :
    (wC5.getClient = .ok clientStd ∧
      recC5.controllerNamespace = "" ∧
      clientStd.deletionTimestampIsZero = true ∧
      containsString clientStd.finalizers FinalizerName = true ∧
      wC5.getSecret = .ok secretStd ∧
      parseSecret secretStd clientStd.spec.tokenEndpointAuthMethod =
        .ok { id := "cid-1", password := some ("pw") } ∧
      getHydraClientForClient recC5 wC5 clientStd =
        (.error ("Not default client or other clients configured"), []) ∧
      (∀ x, wC5.updateStatus x = none)) ∧
    Reconcile recC5 wC5 reqStd = ((.ok (), recC5),
      Event.kubeGetSecret clientStd.spec.secretName reqStd.nspace ::
        ([] ++ [Event.kubeStatusUpdate (withStatusCode clientStd StatusInvalidHydraAddress
          ("Not default client or other clients configured"))])) :=
  ⟨⟨rfl, rfl, rfl, by decide, rfl, by decide, by decide, fun _ => rfl⟩,
    (C5_config_error_status recC5 wC5 reqStd clientStd secretStd
      { id := "cid-1", password := some ("pw") }
      ("Not default client or other clients configured") []
      rfl rfl rfl (by decide) rfl (by decide) (by decide) (fun _ => rfl)).1⟩

def cC6 : OAuth2Client :=
  { clientStd with spec := { specStd with metadata := .unserializable ("bad") } }

def wC6 : World := { trivWorld with getClient := .ok cC6, getSecret := .notFound }

/-- C6 counterexample: with unserializable metadata the create path records a
RegistrationFailed status — but the pass then returns the serialization error
(non-nil) instead of the success the claim requires. -/
theorem C6_counterexample :
    marshalMetadata cC6.spec.metadata = .error ("bad") ∧
    Reconcile recStd wC6 reqStd =
      ((.error ("unable to encode metadata property value to json: bad"), recStd),
        [Event.kubeGetSecret ("myclient-secret") ("default"), Event.registryList,
          Event.kubeStatusUpdate (withStatusCode cC6 StatusRegistrationFailed
            ("unable to encode metadata property value to json: bad"))]) := by
  decide

/-- C6 (amended): when the resource's metadata cannot be serialized, the
create path records a RegistrationFailed status and the update path records an
UpdateFailed status with the serialization error as description — but in both
paths the reconciliation pass returns that error (non-nil) to the caller
rather than success. -/
theorem C6_serialization_error (r : Reconciler) (w : World) (req : Request)
    (c : OAuth2Client) (hc : Nat) (em : String)
    (hget : w.getClient = .ok c)
    (hns : r.controllerNamespace = "")
    (hlive : c.deletionTimestampIsZero = true)
    (hfin : containsString c.finalizers FinalizerName = true)
    (hscope : c.spec.scope ≠ "")
    (hsecret : c.spec.secretName ≠ "")
    (hurl : c.spec.hydraAdmin.url = "")
    (hdefault : r.hydraClient = some hc)
    (hlist : w.registryListAll = .ok [])
    (hmeta : marshalMetadata c.spec.metadata = .error em)
    (hstatus : ∀ x, w.updateStatus x = none) :
    (w.getSecret = .notFound →
      Reconcile r w req =
        ((.error ("unable to encode metadata property value to json: " ++ em), r),
          [Event.kubeGetSecret c.spec.secretName req.nspace, Event.registryList,
            Event.kubeStatusUpdate (withStatusCode c StatusRegistrationFailed
              ("unable to encode metadata property value to json: " ++ em))])) ∧
    (∀ secret creds fetched, w.getSecret = .ok secret →
      parseSecret secret c.spec.tokenEndpointAuthMethod = .ok creds →
      w.registryGetById creds.id = .ok (some fetched) →
      fetched.owner = ownerOf c →
      c.generation ≠ c.status.observedGeneration →
      Reconcile r w req =
        ((.error ("unable to encode metadata property value to json: " ++ em), r),
          [Event.kubeGetSecret c.spec.secretName req.nspace, Event.registryGet creds.id,
            Event.kubeStatusUpdate (withStatusCode c StatusUpdateFailed
              ("unable to encode metadata property value to json: " ++ em))])) := by
  constructor
  · intro hsec
    unfold Reconcile reconcileSync registerOAuth2Client unregisterOAuth2Clients
      getHydraClientForClient FromOAuth2Client
    rw [hget]
    simp [hns, hlive, hfin, hsec, hscope, hsecret, hurl, hdefault, hlist, hmeta,
      deleteOwnedClients, updateReconciliationStatusError_eq, hstatus]
  · intro secret creds fetched hsec hparse hfound howner hgen
    unfold Reconcile reconcileSync updateRegisteredOAuth2Client
      getHydraClientForClient FromOAuth2Client
    rw [hget]
    simp [hns, hlive, hfin, hsec, hparse, hurl, hdefault, hfound, howner, hgen, hmeta,
      updateReconciliationStatusError_eq, hstatus]

theorem C6_serialization_error_witness :
    (wC6.getClient = .ok cC6 ∧
      recStd.controllerNamespace = "" ∧
      cC6.deletionTimestampIsZero = true ∧
      containsString cC6.finalizers FinalizerName = true ∧
      cC6.spec.scope ≠ "" ∧
      cC6.spec.secretName ≠ "" ∧
      cC6.spec.hydraAdmin.url = "" ∧
      recStd.hydraClient = some 0 ∧
      wC6.registryListAll = .ok [] ∧
      marshalMetadata cC6.spec.metadata = .error ("bad") ∧
      (∀ x, wC6.updateStatus x = none) ∧
      wC6.getSecret = .notFound) ∧
    Reconcile recStd wC6 reqStd =
      ((.error ("unable to encode metadata property value to json: bad"), recStd),
        [Event.kubeGetSecret cC6.spec.secretName reqStd.nspace, Event.registryList,
          Event.kubeStatusUpdate (withStatusCode cC6 StatusRegistrationFailed
            ("unable to encode metadata property value to json: bad"))]) :=
  ⟨⟨rfl, rfl, rfl, by decide, by decide, by decide, rfl, rfl, rfl, rfl, fun _ => rfl, rfl⟩,
    (C6_serialization_error recStd wC6 reqStd cC6 0 ("bad")
      rfl rfl rfl (by decide) (by decide) (by decide) rfl rfl rfl rfl
      (fun _ => rfl)).1 rfl⟩

theorem ownedIds_cons (x : OAuth2ClientJSON) (rest : List OAuth2ClientJSON) (owner : String) :
    ownedIds (x :: rest) owner =
      if x.owner = owner then
        (match x.clientId with
         | some cid => cid :: ownedIds rest owner
         | none => ownedIds rest owner)
      else ownedIds rest owner := by
  by_cases hx : x.owner = owner <;> rcases hcid : x.clientId with _ | cid <;>
    simp [ownedIds, hx, hcid]

theorem deleteOwnedClients_cons (w : World) (owner : String) (x : OAuth2ClientJSON)
    (rest : List OAuth2ClientJSON) :
    deleteOwnedClients w owner (x :: rest) =
      if x.owner = owner then
        (match x.clientId with
         | none => (.error ("invalid memory address or nil pointer dereference"), [])
         | some cid =>
           match w.registryRemove cid with
           | some e => (.error e, [.registryDelete cid])
           | none =>
             ((deleteOwnedClients w owner rest).1,
               .registryDelete cid :: (deleteOwnedClients w owner rest).2))
      else deleteOwnedClients w owner rest := by
  by_cases hx : x.owner = owner
  · rcases hcid : x.clientId with _ | cid
    · simp [deleteOwnedClients, hx, hcid]
    · rcases hrm : w.registryRemove cid with _ | e
      · rcases h : deleteOwnedClients w owner rest with ⟨res, tr⟩
        simp [deleteOwnedClients, hx, hcid, hrm, h]
      · simp [deleteOwnedClients, hx, hcid, hrm]
  · simp [deleteOwnedClients, hx]

theorem deleteOwnedClients_mem_events (w : World) (owner : String)
    (clients : List OAuth2ClientJSON) :
    ∀ ev ∈ (deleteOwnedClients w owner clients).2,
      ∃ cid, ev = Event.registryDelete cid ∧ cid ∈ ownedIds clients owner := by
  induction clients with
  | nil => intro ev hev; simp [deleteOwnedClients] at hev
  | cons x rest ih =>
    intro ev hev
    rw [deleteOwnedClients_cons] at hev
    by_cases hx : x.owner = owner
    · rcases hcid : x.clientId with _ | cid
      · simp [hx, hcid] at hev
      · rcases hrm : w.registryRemove cid with _ | e
        · rw [if_pos hx] at hev
          simp only [hcid, hrm] at hev
          simp at hev
          rcases hev with rfl | hev
          · exact ⟨cid, rfl, by rw [ownedIds_cons]; simp [hx, hcid]⟩
          · rcases ih ev hev with ⟨cid', rfl, hmem⟩
            exact ⟨cid', rfl, by rw [ownedIds_cons]; simp [hx, hcid, hmem]⟩
        · rw [if_pos hx] at hev
          simp only [hcid, hrm] at hev
          simp at hev
          subst hev
          exact ⟨cid, rfl, by rw [ownedIds_cons]; simp [hx, hcid]⟩
    · rw [if_neg hx] at hev
      rcases ih ev hev with ⟨cid', rfl, hmem⟩
      exact ⟨cid', rfl, by rw [ownedIds_cons]; simp [hx, hmem]⟩

theorem deleteOwnedClients_success (w : World) (owner : String)
    (clients : List OAuth2ClientJSON)
    (hids : ∀ x ∈ clients, x.owner = owner → x.clientId ≠ none)
    (hdel : ∀ cid ∈ ownedIds clients owner, w.registryRemove cid = none) :
    deleteOwnedClients w owner clients =
      (.ok (), (ownedIds clients owner).map Event.registryDelete) := by
  induction clients with
  | nil => simp [deleteOwnedClients, ownedIds]
  | cons x rest ih =>
    rw [deleteOwnedClients_cons, ownedIds_cons]
    have hrest := ih (fun y hy => hids y (List.mem_cons_of_mem x hy))
      (fun cid hcid => hdel cid (by rw [ownedIds_cons]; by_cases hx : x.owner = owner <;>
        rcases hcidx : x.clientId with _ | cidx <;> simp [hx, hcidx, hcid]))
    by_cases hx : x.owner = owner
    · rcases hcid : x.clientId with _ | cid
      · exact absurd hcid (hids x (List.mem_cons_self x rest) hx)
      · have hrm : w.registryRemove cid = none :=
          hdel cid (by rw [ownedIds_cons]; simp [hx, hcid])
        simp [hx, hcid, hrm, hrest]
    · simp [hx, hrest]

theorem deleteOwnedClients_failure (w : World) (owner : String)
    (clients : List OAuth2ClientJSON)
    (hfail : ∃ cid ∈ ownedIds clients owner, w.registryRemove cid ≠ none) :
    ∃ msg, (deleteOwnedClients w owner clients).1 = .error msg := by
  induction clients with
  | nil => simp [ownedIds] at hfail
  | cons x rest ih =>
    rw [deleteOwnedClients_cons]
    rcases hfail with ⟨cid, hmem, hne⟩
    rw [ownedIds_cons] at hmem
    by_cases hx : x.owner = owner
    · rcases hcid : x.clientId with _ | cidx
      · simp [hx, hcid]
      · rw [if_pos hx] at hmem ⊢
        simp only [hcid] at hmem ⊢
        rcases hrm : w.registryRemove cidx with _ | e
        · have : cid ∈ ownedIds rest owner := by
            simp at hmem
            rcases hmem with rfl | h
            · exact absurd hrm hne
            · exact h
          rcases ih ⟨cid, this, hne⟩ with ⟨msg, hmsg⟩
          exact ⟨msg, by simpa using hmsg⟩
        · exact ⟨e, rfl⟩
    · rw [if_neg hx] at hmem ⊢
      exact ih ⟨cid, hmem, hne⟩

theorem unregister_default_reduces (r : Reconciler) (w : World) (c : OAuth2Client) (hc : Nat)
    (hscope : c.spec.scope ≠ "") (hsecret : c.spec.secretName ≠ "")
    (hurl : c.spec.hydraAdmin.url = "") (hdefault : r.hydraClient = some hc) :
    unregisterOAuth2Clients r w c =
      (match w.registryListAll with
       | .error e => ((.error e, r), [Event.registryList])
       | .ok clients =>
         (((deleteOwnedClients w (ownerOf c) clients).1, r),
           Event.registryList :: (deleteOwnedClients w (ownerOf c) clients).2)) := by
  unfold unregisterOAuth2Clients getHydraClientForClient
  rcases hlist : w.registryListAll with e | clients
  · simp [hscope, hsecret, hurl, hdefault, hlist]
  · rcases hloop : deleteOwnedClients w (ownerOf c) clients with ⟨res, tr⟩
    simp [hscope, hsecret, hurl, hdefault, hlist, hloop]

/-- C4 (deletion completeness and safety): on a deletion-requested pass with
the finalizer present (spec fields non-empty, default client resolution), a
failed listing aborts with the error and no finalizer removal; every deletion
performed targets an id of a listed entry owned by this resource; when every
owned deletion succeeds the trace is exactly the list, the owned deletions,
and the finalizer-removing update, whose success decides the pass result; and
when any owned deletion fails the pass returns an error and never attempts the
finalizer-removing update. -/
theorem C4_deletion_exact (r : Reconciler) (w : World) (req : Request)
    (c : OAuth2Client) (hc : Nat)
    (hget : w.getClient = .ok c)
    (hns : r.controllerNamespace = "")
    (hdel : c.deletionTimestampIsZero = false)
    (hfin : containsString c.finalizers FinalizerName = true)
    (hscope : c.spec.scope ≠ "")
    (hsecret : c.spec.secretName ≠ "")
    (hurl : c.spec.hydraAdmin.url = "")
    (hdefault : r.hydraClient = some hc) :
    (∀ e, w.registryListAll = .error e →
      Reconcile r w req = ((.error e, r), [Event.registryList])) ∧
    (∀ clients, w.registryListAll = .ok clients →
      (∀ cid, Event.registryDelete cid ∈ (Reconcile r w req).2 →
        cid ∈ ownedIds clients (ownerOf c)) ∧
      ((∀ x ∈ clients, x.owner = ownerOf c → x.clientId ≠ none) →
        (∀ cid ∈ ownedIds clients (ownerOf c), w.registryRemove cid = none) →
        (Reconcile r w req).2 =
          Event.registryList :: ((ownedIds clients (ownerOf c)).map Event.registryDelete ++
            [Event.kubeUpdate { c with finalizers := removeString c.finalizers FinalizerName }]) ∧
        ((Reconcile r w req).1.1 = .ok () ↔
          w.updateResource { c with finalizers := removeString c.finalizers FinalizerName } = none)) ∧
      ((∃ cid ∈ ownedIds clients (ownerOf c), w.registryRemove cid ≠ none) →
        (∃ msg, (Reconcile r w req).1.1 = .error msg) ∧
        ∀ x, Event.kubeUpdate x ∉ (Reconcile r w req).2)) := by
  obtain ⟨cn, cns, cg, cd, cf, cs, cst⟩ := c
  dsimp only at hdel hfin hscope hsecret hurl hget ⊢
  subst hdel
  have hunreg := unregister_default_reduces r w
    { name := cn, nspace := cns, generation := cg, deletionTimestampIsZero := false,
      finalizers := cf, spec := cs, status := cst } hc hscope hsecret hurl hdefault
  set cRec : OAuth2Client :=
    { name := cn, nspace := cns, generation := cg, deletionTimestampIsZero := false,
      finalizers := cf, spec := cs, status := cst } with hcRec
  refine ⟨?_, ?_⟩
  · intro e he
    rw [he] at hunreg
    unfold Reconcile
    rw [hget]
    simp [hns, hfin, hunreg]
  · intro clients hlist
    rw [hlist] at hunreg
    dsimp only at hunreg
    have hmm := deleteOwnedClients_mem_events w (ownerOf cRec) clients
    refine ⟨?_, ?_, ?_⟩
    · intro cid hcid
      rcases hloop : deleteOwnedClients w (ownerOf cRec) clients with ⟨res, tr⟩
      rw [hloop] at hunreg hmm
      dsimp only at hunreg hmm
      rcases res with e | u
      · have heq : Reconcile r w req = ((.error e, r), Event.registryList :: tr) := by
          unfold Reconcile
          rw [hget]
          simp [hns, hfin, hunreg]
        rw [heq] at hcid
        simp at hcid
        rcases hmm _ hcid with ⟨cid', heq', hmem⟩
        rw [show cid = cid' from by injection heq']
        exact hmem
      · rcases hupd : w.updateResource { cRec with finalizers := removeString cf FinalizerName }
          with _ | e
        · have heq : Reconcile r w req = ((.ok (), r),
              Event.registryList :: tr ++
                [Event.kubeUpdate { cRec with finalizers := removeString cf FinalizerName }]) := by
            unfold Reconcile
            rw [hget]
            simp [hns, hfin, hunreg, hupd]
          rw [heq] at hcid
          simp at hcid
          rcases hmm _ hcid with ⟨cid', heq', hmem⟩
          rw [show cid = cid' from by injection heq']
          exact hmem
        · have heq : Reconcile r w req = ((.error e, r),
              Event.registryList :: tr ++
                [Event.kubeUpdate { cRec with finalizers := removeString cf FinalizerName }]) := by
            unfold Reconcile
            rw [hget]
            simp [hns, hfin, hunreg, hupd]
          rw [heq] at hcid
          simp at hcid
          rcases hmm _ hcid with ⟨cid', heq', hmem⟩
          rw [show cid = cid' from by injection heq']
          exact hmem
    · intro hids hdelok
      have hloop := deleteOwnedClients_success w (ownerOf cRec) clients hids hdelok
      rw [hloop] at hunreg
      dsimp only at hunreg
      rcases hupd : w.updateResource { cRec with finalizers := removeString cf FinalizerName }
        with _ | e
      · have heq : Reconcile r w req = ((.ok (), r),
            Event.registryList :: ((ownedIds clients (ownerOf cRec)).map Event.registryDelete ++
              [Event.kubeUpdate { cRec with finalizers := removeString cf FinalizerName }])) := by
          unfold Reconcile
          rw [hget]
          simp [hns, hfin, hunreg, hupd]
        rw [heq]
        simp [hupd]
      · have heq : Reconcile r w req = ((.error e, r),
            Event.registryList :: ((ownedIds clients (ownerOf cRec)).map Event.registryDelete ++
              [Event.kubeUpdate { cRec with finalizers := removeString cf FinalizerName }])) := by
          unfold Reconcile
          rw [hget]
          simp [hns, hfin, hunreg, hupd]
        rw [heq]
        simp [hupd]
    · intro hfail
      rcases deleteOwnedClients_failure w (ownerOf cRec) clients hfail with ⟨msg, hmsg⟩
      rcases hloop : deleteOwnedClients w (ownerOf cRec) clients with ⟨res, tr⟩
      rw [hloop] at hunreg hmm hmsg
      dsimp only at hunreg hmm hmsg
      subst hmsg
      have heq : Reconcile r w req = ((.error msg, r), Event.registryList :: tr) := by
        unfold Reconcile
        rw [hget]
        simp [hns, hfin, hunreg]
      rw [heq]
      refine ⟨⟨msg, rfl⟩, ?_⟩
      intro x hx
      simp at hx
      rcases hmm _ hx with ⟨cid', heq', _⟩
      exact absurd heq' (by simp)

def cC4 : OAuth2Client := { clientStd with deletionTimestampIsZero := false }

def regC4 : List OAuth2ClientJSON :=
  [jsonEntry (some ("cid-1")) ("myclient/default"), jsonEntry (some ("cid-2")) ("other/default")]

def wC4 : World := { trivWorld with getClient := .ok cC4, registryListAll := .ok regC4 }

theorem C4_deletion_exact_witness :
    (wC4.getClient = .ok cC4 ∧ recStd.controllerNamespace = "" ∧
      cC4.deletionTimestampIsZero = false ∧
      containsString cC4.finalizers FinalizerName = true ∧
      cC4.spec.scope ≠ "" ∧ cC4.spec.secretName ≠ "" ∧
      cC4.spec.hydraAdmin.url = "" ∧ recStd.hydraClient = some 0 ∧
      wC4.registryListAll = .ok regC4 ∧
      (∀ x ∈ regC4, x.owner = ownerOf cC4 → x.clientId ≠ none) ∧
      (∀ cid ∈ ownedIds regC4 (ownerOf cC4), wC4.registryRemove cid = none)) ∧
    ((Reconcile recStd wC4 reqStd).2 =
      Event.registryList :: ((ownedIds regC4 (ownerOf cC4)).map Event.registryDelete ++
        [Event.kubeUpdate { cC4 with finalizers := removeString cC4.finalizers FinalizerName }]) ∧
      ((Reconcile recStd wC4 reqStd).1.1 = .ok () ↔
        wC4.updateResource { cC4 with finalizers := removeString cC4.finalizers FinalizerName } =
          none)) :=
  ⟨⟨rfl, rfl, rfl, by decide, by decide, by decide, rfl, rfl, rfl, by decide, by decide⟩,
    ((C4_deletion_exact recStd wC4 reqStd cC4 0 rfl rfl rfl (by decide) (by decide) (by decide)
      rfl rfl).2 regC4 rfl).2.1 (by decide) (by decide)⟩

/- Registry-state lemmas for the ownership invariant. -/

theorem applyTrace_cons (reg : List OAuth2ClientJSON) (e : Event) (t : List Event) :
    applyTrace reg (e :: t) = applyTrace (applyEvent reg e) t := rfl

theorem applyTrace_append (reg : List OAuth2ClientJSON) (t₁ t₂ : List Event) :
    applyTrace reg (t₁ ++ t₂) = applyTrace (applyTrace reg t₁) t₂ := by
  simp [applyTrace, List.foldl_append]

theorem mem_applyTrace_deletes (ids : List String) (reg : List OAuth2ClientJSON)
    (x : OAuth2ClientJSON) :
    x ∈ applyTrace reg (ids.map Event.registryDelete) ↔
      x ∈ reg ∧ ∀ cid ∈ ids, x.clientId ≠ some cid := by
  induction ids generalizing reg with
  | nil => simp [applyTrace]
  | cons cid rest ih =>
    rw [List.map_cons, applyTrace_cons, ih]
    simp only [applyEvent, List.mem_filter]
    constructor
    · rintro ⟨⟨hreg, hne⟩, hrest⟩
      refine ⟨hreg, ?_⟩
      intro c hmemc
      rcases List.mem_cons.1 hmemc with rfl | hmemc
      · simpa using hne
      · exact hrest c hmemc
    · rintro ⟨hreg, hall⟩
      refine ⟨⟨hreg, ?_⟩, ?_⟩
      · simpa using hall cid (List.mem_cons_self cid rest)
      · intro c hmemc
        exact hall c (List.mem_cons_of_mem cid hmemc)

theorem ownedGone (reg : List OAuth2ClientJSON) (o : String)
    (hids : ∀ x ∈ reg, x.owner = o → x.clientId ≠ none) :
    (applyTrace reg ((ownedIds reg o).map Event.registryDelete)).filter
      (fun x => x.owner = o) = [] := by
  rw [List.filter_eq_nil_iff]
  intro x hx
  rw [mem_applyTrace_deletes] at hx
  rcases hx with ⟨hxreg, hxid⟩
  intro hp
  simp at hp
  rcases hcid : x.clientId with _ | cid
  · exact (hids x hxreg hp) hcid
  · refine hxid cid ?_ hcid
    simp only [ownedIds, List.mem_filterMap, List.mem_filter]
    exact ⟨x, ⟨hxreg, by simp [hp]⟩, hcid⟩

theorem getHydra_default (r : Reconciler) (w : World) (c : OAuth2Client) (hc : Nat)
    (hurl : c.spec.hydraAdmin.url = "") (hdefault : r.hydraClient = some hc) :
    getHydraClientForClient r w c = (.ok (hc, r), []) := by
  unfold getHydraClientForClient
  simp [hurl, hdefault]

theorem FromOAuth2Client_owner (c : OAuth2Client) (j : OAuth2ClientJSON)
    (h : FromOAuth2Client c = .ok j) : j.owner = ownerOf c := by
  unfold FromOAuth2Client at h
  rcases hm : marshalMetadata c.spec.metadata with e | m <;> rw [hm] at h
  · cases h
  · cases h; rfl

theorem withCredentials_owner (oj : OAuth2ClientJSON) (cr : Oauth2ClientCredentials) :
    (oj.withCredentials cr).owner = oj.owner := by
  unfold OAuth2ClientJSON.withCredentials
  rcases h : cr.password with _ | p <;> simp [h]

/-- C7 (ownership invariant of registration): a registration pass first purges
every listed entry carrying this resource's owner string and only then posts
the new entry, so — for any listed registry state, with the purge deletions
succeeding and the registry echoing the created entry — the resulting registry
state holds at most one entry owned by the resource, on both the import path
(explicit credentials) and the fresh-registration path. -/
theorem C7_owner_unique (r : Reconciler) (w : World) (c : OAuth2Client)
    (credentials : Option Oauth2ClientCredentials) (hc : Nat)
    (reg0 : List OAuth2ClientJSON) (pj : OAuth2ClientJSON)
    (createdOf : OAuth2ClientJSON → OAuth2ClientJSON) (cidOf : OAuth2ClientJSON → String)
    (hscope : c.spec.scope ≠ "") (hsecret : c.spec.secretName ≠ "")
    (hurl : c.spec.hydraAdmin.url = "") (hdefault : r.hydraClient = some hc)
    (hlist : w.registryListAll = .ok reg0)
    (hids : ∀ x ∈ reg0, x.owner = ownerOf c → x.clientId ≠ none)
    (hdelok : ∀ cid ∈ ownedIds reg0 (ownerOf c), w.registryRemove cid = none)
    (hfrom : FromOAuth2Client c = .ok pj)
    (hcreate : ∀ j, w.registryCreate j = .ok (createdOf j))
    (hccid : ∀ j, (createdOf j).clientId = some (cidOf j))
    (hstatus : ∀ x, w.updateStatus x = none)
    (hcs : ∀ s, w.createSecret s = none) :
    ((applyTrace reg0 (registerOAuth2Client r w c credentials).2).filter
      (fun x => x.owner = ownerOf c)).length ≤ 1 := by
  have hunreg := unregister_default_reduces r w c hc hscope hsecret hurl hdefault
  rw [hlist] at hunreg
  dsimp only at hunreg
  rw [deleteOwnedClients_success w (ownerOf c) reg0 hids hdelok] at hunreg
  dsimp only at hunreg
  have hres := getHydra_default r w c hc hurl hdefault
  have hafter := ownedGone reg0 (ownerOf c) hids
  rcases credentials with _ | creds
  · rcases hxsec : (createdOf pj).secret with _ | s
    · have htr : (registerOAuth2Client r w c none).2 =
          Event.registryList :: ((ownedIds reg0 (ownerOf c)).map Event.registryDelete ++
            [Event.registryPost pj (some (createdOf pj)),
             Event.kubeCreateSecret
               { name := c.spec.secretName, nspace := c.nspace,
                 data := [(ClientIDKey, cidOf pj)] },
             Event.kubeStatusUpdate (withStatusCode c "" "")]) := by
        unfold registerOAuth2Client
        simp [hunreg, hres, hfrom, hcreate, hccid, hxsec, hcs, hstatus, ensureEmptyStatusError_eq]
      rw [htr, applyTrace_cons,
        show applyEvent reg0 Event.registryList = reg0 from rfl, applyTrace_append,
        show ∀ S, applyTrace S
          [Event.registryPost pj (some (createdOf pj)),
           Event.kubeCreateSecret
             { name := c.spec.secretName, nspace := c.nspace,
               data := [(ClientIDKey, cidOf pj)] },
           Event.kubeStatusUpdate (withStatusCode c "" "")] = S ++ [createdOf pj]
          from fun S => rfl,
        List.filter_append, List.length_append, hafter]
      simpa using List.length_filter_le (fun x => x.owner = ownerOf c) [createdOf pj]
    · have htr : (registerOAuth2Client r w c none).2 =
          Event.registryList :: ((ownedIds reg0 (ownerOf c)).map Event.registryDelete ++
            [Event.registryPost pj (some (createdOf pj)),
             Event.kubeCreateSecret
               { name := c.spec.secretName, nspace := c.nspace,
                 data := [(ClientIDKey, cidOf pj), (ClientSecretKey, s)] },
             Event.kubeStatusUpdate (withStatusCode c "" "")]) := by
        unfold registerOAuth2Client
        simp [hunreg, hres, hfrom, hcreate, hccid, hxsec, hcs, hstatus, ensureEmptyStatusError_eq]
      rw [htr, applyTrace_cons,
        show applyEvent reg0 Event.registryList = reg0 from rfl, applyTrace_append,
        show ∀ S, applyTrace S
          [Event.registryPost pj (some (createdOf pj)),
           Event.kubeCreateSecret
             { name := c.spec.secretName, nspace := c.nspace,
               data := [(ClientIDKey, cidOf pj), (ClientSecretKey, s)] },
           Event.kubeStatusUpdate (withStatusCode c "" "")] = S ++ [createdOf pj]
          from fun S => rfl,
        List.filter_append, List.length_append, hafter]
      simpa using List.length_filter_le (fun x => x.owner = ownerOf c) [createdOf pj]
  · have htr : (registerOAuth2Client r w c (some creds)).2 =
        Event.registryList :: ((ownedIds reg0 (ownerOf c)).map Event.registryDelete ++
          [Event.registryPost (pj.withCredentials creds)
            (some (createdOf (pj.withCredentials creds))),
           Event.kubeStatusUpdate (withStatusCode c "" "")]) := by
      unfold registerOAuth2Client
      simp [hunreg, hres, hfrom, hcreate, hstatus, ensureEmptyStatusError_eq]
    rw [htr, applyTrace_cons,
      show applyEvent reg0 Event.registryList = reg0 from rfl, applyTrace_append,
      show ∀ S, applyTrace S
        [Event.registryPost (pj.withCredentials creds)
          (some (createdOf (pj.withCredentials creds))),
         Event.kubeStatusUpdate (withStatusCode c "" "")] =
          S ++ [createdOf (pj.withCredentials creds)]
        from fun S => rfl,
      List.filter_append, List.length_append, hafter]
    simpa using List.length_filter_le (fun x => x.owner = ownerOf c)
      [createdOf (pj.withCredentials creds)]

def regC7 : List OAuth2ClientJSON :=
  [jsonEntry (some ("cid-1")) ("myclient/default"), jsonEntry (some ("cid-9")) ("other/default")]

def createdOfC7 : OAuth2ClientJSON → OAuth2ClientJSON :=
  fun j => { j with clientId := some ("new-id") }

def wC7 : World :=
  { trivWorld with
    getClient := .ok clientStd
    registryListAll := .ok regC7
    registryCreate := fun j => .ok (createdOfC7 j) }

def pjC7 : OAuth2ClientJSON :=
  { clientName := "myclient", clientId := none, secret := none,
    grantTypes := ["client_credentials"], redirectUris := [], postLogoutRedirectUris := [],
    allowedCorsOrigins := [], responseTypes := [], audience := [], scope := "read write",
    owner := "myclient/default", tokenEndpointAuthMethod := "client_secret_basic",
    metadata := "null" }

theorem C7_owner_unique_witness :
    (clientStd.spec.scope ≠ "" ∧ clientStd.spec.secretName ≠ "" ∧
      clientStd.spec.hydraAdmin.url = "" ∧ recStd.hydraClient = some 0 ∧
      wC7.registryListAll = .ok regC7 ∧
      (∀ x ∈ regC7, x.owner = ownerOf clientStd → x.clientId ≠ none) ∧
      (∀ cid ∈ ownedIds regC7 (ownerOf clientStd), wC7.registryRemove cid = none) ∧
      FromOAuth2Client clientStd = .ok pjC7 ∧
      (∀ j, wC7.registryCreate j = .ok (createdOfC7 j)) ∧
      (∀ j, (createdOfC7 j).clientId = some ("new-id")) ∧
      (∀ x, wC7.updateStatus x = none) ∧ (∀ s, wC7.createSecret s = none)) ∧
    ((applyTrace regC7 (registerOAuth2Client recStd wC7 clientStd none).2).filter
      (fun x => x.owner = ownerOf clientStd)).length ≤ 1 :=
  ⟨⟨by decide, by decide, rfl, rfl, rfl, by decide, by decide, by decide,
      fun _ => rfl, fun _ => rfl, fun _ => rfl, fun _ => rfl⟩,
    C7_owner_unique recStd wC7 clientStd none 0 regC7 pjC7 createdOfC7 (fun _ => "new-id")
      (by decide) (by decide) rfl rfl rfl (by decide) (by decide) (by decide)
      (fun _ => rfl) (fun _ => rfl) (fun _ => rfl) (fun _ => rfl)⟩

/- Router cache machinery for the endpoint-resolution claims. -/

/-- Well-formedness of the endpoint cache: every cached instance precedes the
allocator, and no two cache entries share an instance. Holds for the freshly
constructed reconciler (empty cache) and is preserved by resolution. -/
def RouterWF (r : Reconciler) : Prop :=
  (∀ p ∈ r.router.cache, p.2 < r.router.nextId) ∧
  List.Pairwise (fun p q => p.2 ≠ q.2) r.router.cache

theorem cacheLookup_mem (cache : List (ClientKey × Nat)) (key : ClientKey) (v : Nat)
    (h : cacheLookup cache key = some v) : (key, v) ∈ cache := by
  induction cache with
  | nil => cases h
  | cons p rest ih =>
    rcases p with ⟨k, x⟩
    by_cases hk : k = key
    · rw [cacheLookup, if_pos hk] at h
      subst hk
      injection h with h
      subst h
      exact List.mem_cons_self _ _
    · rw [cacheLookup, if_neg hk] at h
      exact List.mem_cons_of_mem _ (ih h)

theorem cache_value_inj (cache : List (ClientKey × Nat))
    (hpw : List.Pairwise (fun p q => p.2 ≠ q.2) cache) :
    ∀ k₁ v₁ k₂ v₂, (k₁, v₁) ∈ cache → (k₂, v₂) ∈ cache → k₁ ≠ k₂ → v₁ ≠ v₂ := by
  induction hpw with
  | nil =>
    intro k₁ v₁ k₂ v₂ h₁ h₂ hne
    cases h₁
  | @cons p rest hhead htail ih =>
    intro k₁ v₁ k₂ v₂ h₁ h₂ hne
    rcases List.mem_cons.1 h₁ with h₁e | h₁m
    · rcases List.mem_cons.1 h₂ with h₂e | h₂m
      · exact absurd (congrArg Prod.fst (h₁e.trans h₂e.symm)) hne
      · have hv := hhead (k₂, v₂) h₂m
        rw [← h₁e] at hv
        exact hv
    · rcases List.mem_cons.1 h₂ with h₂e | h₂m
      · have hv := hhead (k₁, v₁) h₁m
        rw [← h₂e] at hv
        exact fun he => hv he.symm
      · exact ih k₁ v₁ k₂ v₂ h₁m h₂m hne

theorem keyOf_inj (a b : HydraAdmin) (h : keyOf a = keyOf b) : a = b := by
  rcases a with ⟨au, ap, ae, af⟩
  rcases b with ⟨bu, bp, be, bf⟩
  simp [keyOf] at h
  simp [h]

theorem cacheLookup_cons (k : ClientKey) (v : Nat) (rest : List (ClientKey × Nat))
    (key : ClientKey) :
    cacheLookup ((k, v) :: rest) key = if k = key then some v else cacheLookup rest key := rfl

def cC9a : OAuth2Client :=
  { clientStd with spec := { specStd with
      hydraAdmin := { url := "", port := 4445, endpoint := "", forwardedProto := "" } } }

def cC9b : OAuth2Client :=
  { clientStd with spec := { specStd with
      hydraAdmin := { url := "", port := 4446, endpoint := "", forwardedProto := "" } } }

/-- C9 counterexample: two value-distinct endpoint descriptors (same empty
url, different ports) both resolve to the identical default client instance —
"resolutions for distinct descriptors never return a shared instance" fails on
the code, because only the url being non-empty selects the per-descriptor
cache, and every empty-url descriptor falls back to the one default client. -/
theorem C9_counterexample :
    cC9a.spec.hydraAdmin ≠ cC9b.spec.hydraAdmin ∧
    getHydraClientForClient recStd trivWorld cC9a = (.ok (0, recStd), []) ∧
    getHydraClientForClient recStd trivWorld cC9b = (.ok (0, recStd), []) := by
  decide

/-- C9 (amended): over a well-formed router state, a second resolution with a
value-equal descriptor returns the instance and state of the first with no
factory invocation; two sequential resolutions for distinct descriptors that
both declare a custom (non-empty-url) endpoint never share an instance; and
every resolution for an empty-url descriptor returns the shared default
client, whatever the remaining descriptor fields are. -/
theorem C9_cache_reuse (r : Reconciler) (w : World) (c₁ c₂ : OAuth2Client)
    (hwf : RouterWF r) :
    (∀ i₁ r₁ tr₁, getHydraClientForClient r w c₁ = (.ok (i₁, r₁), tr₁) →
      c₂.spec.hydraAdmin = c₁.spec.hydraAdmin →
      getHydraClientForClient r₁ w c₂ = (.ok (i₁, r₁), [])) ∧
    (∀ i₁ r₁ tr₁ i₂ r₂ tr₂, getHydraClientForClient r w c₁ = (.ok (i₁, r₁), tr₁) →
      getHydraClientForClient r₁ w c₂ = (.ok (i₂, r₂), tr₂) →
      c₁.spec.hydraAdmin.url ≠ "" → c₂.spec.hydraAdmin.url ≠ "" →
      c₁.spec.hydraAdmin ≠ c₂.spec.hydraAdmin →
      i₁ ≠ i₂) ∧
    (∀ hc, r.hydraClient = some hc → c₁.spec.hydraAdmin.url = "" →
      getHydraClientForClient r w c₁ = (.ok (hc, r), [])) := by
  refine ⟨?_, ?_, ?_⟩
  · intro i₁ r₁ tr₁ h₁ hadm
    by_cases hurl : c₁.spec.hydraAdmin.url ≠ ""
    · unfold getHydraClientForClient at h₁ ⊢
      rw [if_pos hurl] at h₁
      rw [if_pos (by rw [hadm]; exact hurl), hadm]
      dsimp only at h₁ ⊢
      rcases hlk : cacheLookup r.router.cache (keyOf c₁.spec.hydraAdmin) with _ | cid
      · rw [hlk] at h₁
        rcases hf : w.factoryBuild (keyOf c₁.spec.hydraAdmin) with _ | e
        · rw [hf] at h₁
          simp at h₁
          obtain ⟨⟨hi, hr⟩, htr⟩ := h₁
          subst hi
          subst hr
          simp [cacheLookup_cons]
        · rw [hf] at h₁
          simp at h₁
      · rw [hlk] at h₁
        simp at h₁
        obtain ⟨⟨hi, hr⟩, htr⟩ := h₁
        subst hi
        subst hr
        rw [hlk]
    · rw [not_not] at hurl
      unfold getHydraClientForClient at h₁ ⊢
      rw [if_neg (by simp [hurl])] at h₁
      rw [if_neg (by simp [hadm, hurl])]
      rcases hd : r.hydraClient with _ | hcd
      · rw [hd] at h₁
        simp at h₁
      · rw [hd] at h₁
        simp at h₁
        obtain ⟨⟨hi, hr⟩, htr⟩ := h₁
        subst hi
        subst hr
        rw [hd]
  · intro i₁ r₁ tr₁ i₂ r₂ tr₂ h₁ h₂ hu₁ hu₂ hne
    have hkne : keyOf c₁.spec.hydraAdmin ≠ keyOf c₂.spec.hydraAdmin :=
      fun hk => hne (keyOf_inj _ _ hk)
    unfold getHydraClientForClient at h₁ h₂
    rw [if_pos hu₁] at h₁
    rw [if_pos hu₂] at h₂
    dsimp only at h₁ h₂
    rcases hlk₁ : cacheLookup r.router.cache (keyOf c₁.spec.hydraAdmin) with _ | cid₁
    · rw [hlk₁] at h₁
      rcases hf₁ : w.factoryBuild (keyOf c₁.spec.hydraAdmin) with _ | e₁
      · rw [hf₁] at h₁
        simp at h₁
        obtain ⟨⟨hi₁, hr₁⟩, htr₁⟩ := h₁
        subst hi₁
        subst hr₁
        dsimp only at h₂
        rw [cacheLookup_cons, if_neg hkne] at h₂
        rcases hlk₂ : cacheLookup r.router.cache (keyOf c₂.spec.hydraAdmin) with _ | cid₂
        · rw [hlk₂] at h₂
          rcases hf₂ : w.factoryBuild (keyOf c₂.spec.hydraAdmin) with _ | e₂
          · rw [hf₂] at h₂
            simp at h₂
            obtain ⟨⟨hi₂, hr₂⟩, htr₂⟩ := h₂
            subst hi₂
            omega
          · rw [hf₂] at h₂
            simp at h₂
        · rw [hlk₂] at h₂
          simp at h₂
          obtain ⟨⟨hi₂, hr₂⟩, htr₂⟩ := h₂
          subst hi₂
          have hb := hwf.1 _ (cacheLookup_mem _ _ _ hlk₂)
          omega
      · rw [hf₁] at h₁
        simp at h₁
    · rw [hlk₁] at h₁
      simp at h₁
      obtain ⟨⟨hi₁, hr₁⟩, htr₁⟩ := h₁
      subst hi₁
      subst hr₁
      rcases hlk₂ : cacheLookup r.router.cache (keyOf c₂.spec.hydraAdmin) with _ | cid₂
      · rw [hlk₂] at h₂
        rcases hf₂ : w.factoryBuild (keyOf c₂.spec.hydraAdmin) with _ | e₂
        · rw [hf₂] at h₂
          simp at h₂
          obtain ⟨⟨hi₂, hr₂⟩, htr₂⟩ := h₂
          subst hi₂
          have hb := hwf.1 _ (cacheLookup_mem _ _ _ hlk₁)
          omega
        · rw [hf₂] at h₂
          simp at h₂
      · rw [hlk₂] at h₂
        simp at h₂
        obtain ⟨⟨hi₂, hr₂⟩, htr₂⟩ := h₂
        subst hi₂
        exact cache_value_inj r.router.cache hwf.2 _ _ _ _
          (cacheLookup_mem _ _ _ hlk₁) (cacheLookup_mem _ _ _ hlk₂) hkne
  · intro hc hd hu
    unfold getHydraClientForClient
    rw [if_neg (by simp [hu]), hd]

def adminC9 : HydraAdmin :=
  { url := "http://hydra-admin", port := 4445, endpoint := "/clients", forwardedProto := "" }

def cC9c : OAuth2Client :=
  { clientStd with spec := { specStd with hydraAdmin := adminC9 } }

def recC9b : Reconciler :=
  { recStd with router := { cache := [(keyOf adminC9, 1)], nextId := 2 } }

theorem C9_cache_reuse_witness :
    RouterWF recStd ∧
    getHydraClientForClient recStd trivWorld cC9c =
      (.ok (1, recC9b), [Event.factoryCall (keyOf adminC9)]) ∧
    getHydraClientForClient recC9b trivWorld cC9c = (.ok (1, recC9b), []) :=
  have hwf : RouterWF recStd := ⟨by simp [recStd], List.Pairwise.nil⟩
  ⟨hwf, by decide,
    (C9_cache_reuse recStd trivWorld cC9c cC9c hwf).1 1 recC9b
      [Event.factoryCall (keyOf adminC9)] (by decide) rfl⟩

end HydraMaester
